import Mathlib

/-! Shallow embedding of the Airtable enterprise-account bulk-export scripts
(`src/base_data.js` and `src/metadata.js`).  The remote API is modelled by a
per-base environment recording the (fixed) settlement of each request promise;
the SQLite tables `bases` and `data` are modelled as lists of rows.  The
bounded-concurrency `Promise.map` loops of the source are modelled
sequentially: the claims under study concern per-base and per-table state
transitions and error routing, not scheduling. -/

/-- Remote (axios / Airtable SDK) failure as inspected by `base_data.js`:
the fields stand for `err.code === 'ETIMEDOUT'` (`isTimeout`),
`err.response.status` (`status`) and
`err.response.data.error === 'NOT_FOUND'` (`notFound`). -/
structure RemErr where
  isTimeout : Bool
  status : Nat
  notFound : Bool
deriving Repr, DecidableEq

/-- Failure propagated out of the scan phase of `base_data.run`: a remote
error rethrown by the script, or the TypeError raised at
`record_numbers.reduce((a, c) => a + c)` when a base has zero tables
(reduce of an empty array with no initial value throws). -/
inductive RunErr where
  | remote (e : RemErr)
  | emptyReduce
deriving Repr, DecidableEq

/-- Retry loop of `requestWithRetry` (base_data.js lines 30-58), indexed by
the remaining retry budget `5 - retry_count` of the source's
`retry_count < 5` guard.  The source re-awaits the *same* promise `request`
on every retry, so the settled outcome is fixed; the result is the outcome
together with the number of times the promise is awaited and the total
milliseconds slept (`setTimeout(..., 10000)` per retry). -/
def retryLoop {α : Type} (e : RemErr) : Nat → Except RemErr α × Nat × Nat
  | 0 => (.error e, 1, 0)
  | n + 1 =>
    if e.isTimeout = true then
      let r := retryLoop e n
      (r.1, r.2.1 + 1, r.2.2 + 10000)
    else (.error e, 1, 0)

/-- `requestWithRetry(request, request_id, retry_count)` of base_data.js:
await the promise; on an `ETIMEDOUT` failure with `retry_count < 5`, sleep
10s and recurse with `retry_count + 1`; otherwise rethrow the original
error unchanged.  Returns (outcome, number of awaits, total sleep ms). -/
def requestWithRetry {α : Type} (req : Except RemErr α) (retry_count : Nat) :
    Except RemErr α × Nat × Nat :=
  match req with
  | .ok a => (.ok a, 1, 0)
  | .error e => retryLoop e (5 - retry_count)

/-- Row of the `bases` table
(`CREATE TABLE bases (id TEXT PRIMARY KEY, workspace_id TEXT, name TEXT,
created_time TEXT, scan_time TEXT, scan_id TEXT)` in metadata.js). -/
structure BaseRow where
  id : String
  workspace_id : String
  name : String
  created_time : String
  scan_time : Option String
  scan_id : Option String
deriving Repr, DecidableEq

/-- Row of the `data` table
(`CREATE TABLE data (base_id TEXT, table_id TEXT, record_id TEXT PRIMARY KEY,
data TEXT, created_time TEXT, scan_id TEXT, ...)` in metadata.js).
Note `record_id` alone is the PRIMARY KEY. -/
structure DataRow where
  base_id : String
  table_id : String
  record_id : String
  data : String
  created_time : String
  scan_id : Option String
deriving Repr, DecidableEq

/-- The durable store: the two scan-relevant SQLite tables. -/
structure Store where
  bases : List BaseRow
  data : List DataRow
deriving Repr, DecidableEq

/-- A record fetched from the API: `rec.id`, `JSON.stringify(rec.fields)`
and `rec._rawJson.createdTime`. -/
structure RecordData where
  id : String
  fields : String
  createdTime : String
deriving Repr, DecidableEq

/-- Remote behaviour for one table of a base: its metadata-API id and name,
and the settled outcome of `base(t.name).select().all()`. -/
structure TableEnv where
  id : String
  name : String
  fetch : Except RemErr (List RecordData)

/-- Remote behaviour for one base: settled outcomes of the collaborator
grant POST, the table-list GET, and the collaborator revoke DELETE. -/
structure BaseEnv where
  grant : Except RemErr Unit
  tables : Except RemErr (List TableEnv)
  revoke : Except RemErr Unit

/-- Kind of remote call issued while scanning a base. -/
inductive CallKind where
  | grant
  | tables
  | fetch (table_id : String)
  | revoke
deriving Repr, DecidableEq

/-- A remote call, recorded for the base it targets. -/
structure RemoteCall where
  base_id : String
  kind : CallKind
deriving Repr, DecidableEq

/-- `INSERT OR REPLACE INTO data (base_id, table_id, record_id, created_time,
data, scan_id) VALUES ($base_id, $table_id, $record_id, $data, $created_time,
$scan_id)` (base_data.js line 205).  `record_id` is the table's PRIMARY KEY,
so the replaced rows are exactly those with an equal `record_id`.  The VALUES
list pairs the `created_time` column with `$data` and the `data` column with
`$created_time`, so the two payload fields land swapped; the embedding keeps
that pairing. -/
def upsertData (base_id table_id scan_id : String) (rec : RecordData)
    (rows : List DataRow) : List DataRow :=
  rows.filter (fun r => decide (r.record_id ≠ rec.id)) ++
    [{ base_id := base_id, table_id := table_id, record_id := rec.id,
       data := rec.createdTime, created_time := rec.fields,
       scan_id := some scan_id }]

/-- Write all fetched records of one table
(`records.map(...)` + `Promise.all` in base_data.js lines 196-209),
linearized in list order. -/
def writeTableRecords (base_id table_id scan_id : String) :
    List RecordData → List DataRow → List DataRow
  | [], rows => rows
  | rec :: recs, rows =>
    writeTableRecords base_id table_id scan_id recs
      (upsertData base_id table_id scan_id rec rows)

/-- Result of scanning the tables of one base: the updated `data` rows, the
record-fetch calls issued, and whether some table's fetch failed. -/
structure TablesOut where
  rows : List DataRow
  calls : List RemoteCall
  failed : Bool
deriving Repr, DecidableEq

/-- The inner `Promise.map(tables, ...)` of base_data.js lines 184-214,
linearized: fetch each table's records through `requestWithRetry` and upsert
them tagged with the current scan id; the first failing fetch makes the map
reject (`failed := true`), leaving earlier tables' writes in place. -/
def scanTables (base_id scan_id : String) :
    List TableEnv → List DataRow → TablesOut
  | [], rows => ⟨rows, [], false⟩
  | t :: ts, rows =>
    match (requestWithRetry t.fetch 0).1 with
    | .error _ => ⟨rows, [⟨base_id, .fetch t.id⟩], true⟩
    | .ok recs =>
      let out := scanTables base_id scan_id ts
        (writeTableRecords base_id t.id scan_id recs rows)
      ⟨out.rows, ⟨base_id, .fetch t.id⟩ :: out.calls, out.failed⟩

/-- `UPDATE bases SET scan_time=?, scan_id=? WHERE id=?`
(base_data.js line 248). -/
def updateBaseScan (base_id scan_id now : String) (rows : List BaseRow) :
    List BaseRow :=
  rows.map (fun b =>
    if b.id = base_id then
      { b with scan_time := some now, scan_id := some scan_id }
    else b)

/-- Outcome of (part of) a run: resulting store, skip-list entries pushed to
`UNSCANNED_BASES`, remote calls issued, and the propagated error if any. -/
structure ScanResult where
  store : Store
  skips : List String
  calls : List RemoteCall
  err : Option RunErr
deriving Repr, DecidableEq

/-- The per-base body of `Promise.map(bases, ...)` in base_data.js lines
137-251: grant collaborator access (404 / NOT_FOUND payload means return 0
quietly; 403 means push to the skip list and return 0; anything else is
rethrown), fetch the table list (403 means return 0 quietly; anything else
is rethrown), scan every table (a failure puts the base on the skip list and
leaves its `bases` row untouched), hit the empty-array `reduce` TypeError
when the base has no tables, revoke access (403 is swallowed with a warning;
anything else is rethrown before the update), and finally update the base
row's `scan_time` and `scan_id`. -/
def scanBase (env : BaseEnv) (scan_id now base_id : String) (st : Store) :
    ScanResult :=
  match (requestWithRetry env.grant 0).1 with
  | .error e =>
    if e.status = 404 ∨ e.notFound = true then
      { store := st, skips := [], calls := [⟨base_id, .grant⟩], err := none }
    else if e.status = 403 then
      { store := st, skips := [base_id], calls := [⟨base_id, .grant⟩],
        err := none }
    else
      { store := st, skips := [], calls := [⟨base_id, .grant⟩],
        err := some (.remote e) }
  | .ok _ =>
    match (requestWithRetry env.tables 0).1 with
    | .error e =>
      if e.status = 403 then
        { store := st, skips := [],
          calls := [⟨base_id, .grant⟩, ⟨base_id, .tables⟩], err := none }
      else
        { store := st, skips := [],
          calls := [⟨base_id, .grant⟩, ⟨base_id, .tables⟩],
          err := some (.remote e) }
    | .ok ts =>
      let out := scanTables base_id scan_id ts st.data
      let calls0 := ⟨base_id, .grant⟩ :: ⟨base_id, .tables⟩ :: out.calls
      if out.failed then
        { store := { st with data := out.rows }, skips := [base_id],
          calls := calls0, err := none }
      else if ts.isEmpty then
        { store := { st with data := out.rows }, skips := [],
          calls := calls0, err := some .emptyReduce }
      else
        match (requestWithRetry env.revoke 0).1 with
        | .error e =>
          if e.status = 403 then
            { store := { bases := updateBaseScan base_id scan_id now st.bases,
                         data := out.rows },
              skips := [], calls := calls0 ++ [⟨base_id, .revoke⟩],
              err := none }
          else
            { store := { st with data := out.rows }, skips := [],
              calls := calls0 ++ [⟨base_id, .revoke⟩],
              err := some (.remote e) }
        | .ok _ =>
          { store := { bases := updateBaseScan base_id scan_id now st.bases,
                       data := out.rows },
            skips := [], calls := calls0 ++ [⟨base_id, .revoke⟩],
            err := none }

/-- `SELECT * FROM bases WHERE scan_id !=? OR scan_id IS NULL`
(base_data.js line 119): the rows whose stored scan id is not the active
one (a NULL scan id never compares equal in SQL, hence the IS NULL arm). -/
def selectBases (st : Store) (scan_id : String) : List BaseRow :=
  st.bases.filter (fun b => decide (b.scan_id ≠ some scan_id))

/-- The outer `Promise.map(bases, ...)` of `base_data.run`, linearized:
scan each selected base in turn; a propagated error rejects the map (no
further bases are dispatched), otherwise effects accumulate. -/
def runScanAux (env : String → BaseEnv) (scan_id now : String) :
    List BaseRow → Store → ScanResult
  | [], st => ⟨st, [], [], none⟩
  | b :: rest, st =>
    let r := scanBase (env b.id) scan_id now b.id st
    match r.err with
    | some e => ⟨r.store, r.skips, r.calls, some e⟩
    | none =>
      let r2 := runScanAux env scan_id now rest r.store
      ⟨r2.store, r.skips ++ r2.skips, r.calls ++ r2.calls, r2.err⟩

/-- The scan phase of `base_data.run`: select the bases not tagged with the
active scan id and scan them. -/
def runScan (env : String → BaseEnv) (scan_id now : String) (st : Store) :
    ScanResult :=
  runScanAux env scan_id now (selectBases st scan_id) st

/-- `deleteData(db, scan_id, table_name, primary_field)` (base_data.js lines
78-104): SELECT the `primary_field` of every row whose `scan_id` differs
from the given one or is NULL, then DELETE the rows whose key is in that
list. -/
def deleteKeyed {α : Type} (key : α → String) (tag : α → Option String)
    (scan_id : String) (rows : List α) : List α :=
  let to_delete :=
    (rows.filter (fun r => decide (tag r ≠ some scan_id))).map key
  rows.filter (fun r => decide (key r ∉ to_delete))

/-- The reconciliation tail of `base_data.run` (lines 262-265):
`deleteData(db, scan_id, 'bases', 'id')` followed by
`deleteData(db, scan_id, 'data', 'record_id')`. -/
def reconcile (scan_id : String) (st : Store) : Store :=
  { bases := deleteKeyed (fun b => b.id) (fun b => b.scan_id) scan_id st.bases,
    data :=
      deleteKeyed (fun r => r.record_id) (fun r => r.scan_id) scan_id st.data }

/-- `base_data.run(db, scan_id, delete_data)`: scan, then — only when the
scan phase resolved and `delete_data === true` — reconcile bases and data. -/
def run (env : String → BaseEnv) (scan_id now : String) (delete_data : Bool)
    (st : Store) : ScanResult :=
  let r := runScan env scan_id now st
  match r.err with
  | some _ => r
  | none =>
    if delete_data = true then { r with store := reconcile scan_id r.store }
    else r

/-- The base upsert of the metadata crawl (`metadata.run`, line 102):
`INSERT OR REPLACE INTO bases (id, workspace_id, created_time, name)
VALUES ($id, $workspace_id, $created_time, $name)`.  `id` is the PRIMARY
KEY, so the conflicting row is replaced; the unsupplied `scan_time` and
`scan_id` columns of the fresh row are NULL. -/
def upsertBaseMeta (base_id wid ct nm : String) (rows : List BaseRow) :
    List BaseRow :=
  rows.filter (fun b => decide (b.id ≠ base_id)) ++
    [{ id := base_id, workspace_id := wid, name := nm, created_time := ct,
       scan_time := none, scan_id := none }]

/-- Boolean success test for a settled outcome. -/
def exceptIsOk {ε α : Type} : Except ε α → Bool
  | .ok _ => true
  | .error _ => false

/-- Environment in which every failure while scanning a base is one the
script classifies and contains: the grant call succeeds or fails with 404 /
NOT_FOUND payload / 403; when the grant succeeds, the table-list call
succeeds or fails with 403; when the table list arrives it is nonempty and
either some table fetch fails (the catch turns this into a skip-list entry)
or the revoke call succeeds or fails with 403. -/
def containedEnv (env : BaseEnv) : Bool :=
  match env.grant with
  | .error e => e.status == 404 || e.notFound || e.status == 403
  | .ok _ =>
    match env.tables with
    | .error e => e.status == 403
    | .ok ts =>
      !ts.isEmpty &&
        (ts.any (fun t => !exceptIsOk t.fetch) ||
          match env.revoke with
          | .ok _ => true
          | .error e => e.status == 403)

theorem retryLoop_fst {α : Type} (e : RemErr) (n : Nat) :
    (retryLoop (α := α) e n).1 = .error e := by
  induction n with
  | zero => rfl
  | succ n ih =>
    unfold retryLoop
    by_cases h : e.isTimeout = true
    · simp [h, ih]
    · simp [h]

theorem requestWithRetry_fst {α : Type} (req : Except RemErr α) (n : Nat) :
    (requestWithRetry req n).1 = req := by
  cases req with
  | ok a => rfl
  | error e => exact retryLoop_fst e (5 - n)

theorem scanTables_failed_iff (base_id scan_id : String) (ts : List TableEnv)
    (rows : List DataRow) :
    (scanTables base_id scan_id ts rows).failed
      = ts.any (fun t => !exceptIsOk t.fetch) := by
  induction ts generalizing rows with
  | nil => rfl
  | cons t ts ih =>
    cases hf : t.fetch with
    | error e =>
      simp [scanTables, requestWithRetry_fst, hf, exceptIsOk]
    | ok recs =>
      simp [scanTables, requestWithRetry_fst, hf, exceptIsOk, ih]

theorem scanTables_not_failed (base_id scan_id : String) (ts : List TableEnv)
    (rows : List DataRow)
    (h : (scanTables base_id scan_id ts rows).failed = false) :
    ∀ t ∈ ts, ∃ recs, t.fetch = .ok recs := by
  rw [scanTables_failed_iff] at h
  intro t ht
  cases hf : t.fetch with
  | ok recs => exact ⟨recs, rfl⟩
  | error e =>
    rw [List.any_eq_false] at h
    have h2 := h t ht
    rw [hf] at h2
    simp [exceptIsOk] at h2

theorem scanTables_failed_of_mem (base_id scan_id : String)
    (ts : List TableEnv) (rows : List DataRow) (t : TableEnv) (ht : t ∈ ts)
    (e : RemErr) (he : t.fetch = .error e) :
    (scanTables base_id scan_id ts rows).failed = true := by
  rw [scanTables_failed_iff]
  refine List.any_eq_true.2 ⟨t, ht, ?_⟩
  simp [he, exceptIsOk]

theorem scanBase_grant_notfound (env : BaseEnv) (scan_id now base_id : String)
    (st : Store) (e : RemErr) (hg : env.grant = .error e)
    (h : e.status = 404 ∨ e.notFound = true) :
    scanBase env scan_id now base_id st
      = ⟨st, [], [⟨base_id, .grant⟩], none⟩ := by
  simp only [scanBase, requestWithRetry_fst, hg]
  rw [if_pos h]

theorem scanBase_grant_forbidden (env : BaseEnv) (scan_id now base_id : String)
    (st : Store) (e : RemErr) (hg : env.grant = .error e)
    (hn : ¬(e.status = 404 ∨ e.notFound = true)) (h3 : e.status = 403) :
    scanBase env scan_id now base_id st
      = ⟨st, [base_id], [⟨base_id, .grant⟩], none⟩ := by
  simp only [scanBase, requestWithRetry_fst, hg]
  rw [if_neg hn, if_pos h3]

theorem scanBase_grant_other (env : BaseEnv) (scan_id now base_id : String)
    (st : Store) (e : RemErr) (hg : env.grant = .error e)
    (hn : ¬(e.status = 404 ∨ e.notFound = true)) (h3 : e.status ≠ 403) :
    scanBase env scan_id now base_id st
      = ⟨st, [], [⟨base_id, .grant⟩], some (.remote e)⟩ := by
  simp only [scanBase, requestWithRetry_fst, hg]
  rw [if_neg hn, if_neg h3]

theorem scanBase_tables_forbidden (env : BaseEnv)
    (scan_id now base_id : String) (st : Store) (e : RemErr)
    (hg : env.grant = .ok ()) (ht : env.tables = .error e)
    (h3 : e.status = 403) :
    scanBase env scan_id now base_id st
      = ⟨st, [], [⟨base_id, .grant⟩, ⟨base_id, .tables⟩], none⟩ := by
  simp only [scanBase, requestWithRetry_fst, hg, ht]
  rw [if_pos h3]

theorem scanBase_tables_other (env : BaseEnv) (scan_id now base_id : String)
    (st : Store) (e : RemErr) (hg : env.grant = .ok ())
    (ht : env.tables = .error e) (h3 : e.status ≠ 403) :
    scanBase env scan_id now base_id st
      = ⟨st, [], [⟨base_id, .grant⟩, ⟨base_id, .tables⟩],
          some (.remote e)⟩ := by
  simp only [scanBase, requestWithRetry_fst, hg, ht]
  rw [if_neg h3]

theorem scanBase_table_failure (env : BaseEnv) (scan_id now base_id : String)
    (st : Store) (ts : List TableEnv) (hg : env.grant = .ok ())
    (ht : env.tables = .ok ts)
    (hfail : (scanTables base_id scan_id ts st.data).failed = true) :
    scanBase env scan_id now base_id st
      = ⟨{ st with data := (scanTables base_id scan_id ts st.data).rows },
          [base_id],
          ⟨base_id, .grant⟩ :: ⟨base_id, .tables⟩ ::
            (scanTables base_id scan_id ts st.data).calls,
          none⟩ := by
  simp only [scanBase, requestWithRetry_fst, hg, ht]
  rw [if_pos hfail]

theorem scanBase_empty_tables (env : BaseEnv) (scan_id now base_id : String)
    (st : Store) (hg : env.grant = .ok ()) (ht : env.tables = .ok []) :
    scanBase env scan_id now base_id st
      = ⟨st, [], [⟨base_id, .grant⟩, ⟨base_id, .tables⟩],
          some .emptyReduce⟩ := by
  simp only [scanBase, requestWithRetry_fst, hg, ht]
  rfl

theorem scanBase_commit_revoke_ok (env : BaseEnv)
    (scan_id now base_id : String) (st : Store) (ts : List TableEnv)
    (hg : env.grant = .ok ()) (ht : env.tables = .ok ts)
    (hfail : (scanTables base_id scan_id ts st.data).failed = false)
    (hne : ts.isEmpty = false) (hr : env.revoke = .ok ()) :
    scanBase env scan_id now base_id st
      = ⟨⟨updateBaseScan base_id scan_id now st.bases,
            (scanTables base_id scan_id ts st.data).rows⟩,
          [],
          (⟨base_id, .grant⟩ :: ⟨base_id, .tables⟩ ::
              (scanTables base_id scan_id ts st.data).calls)
            ++ [⟨base_id, .revoke⟩],
          none⟩ := by
  simp only [scanBase, requestWithRetry_fst, hg, ht, hr, hfail, hne]
  simp

theorem scanBase_commit_revoke_forbidden (env : BaseEnv)
    (scan_id now base_id : String) (st : Store) (ts : List TableEnv)
    (e : RemErr) (hg : env.grant = .ok ()) (ht : env.tables = .ok ts)
    (hfail : (scanTables base_id scan_id ts st.data).failed = false)
    (hne : ts.isEmpty = false) (hr : env.revoke = .error e)
    (h3 : e.status = 403) :
    scanBase env scan_id now base_id st
      = ⟨⟨updateBaseScan base_id scan_id now st.bases,
            (scanTables base_id scan_id ts st.data).rows⟩,
          [],
          (⟨base_id, .grant⟩ :: ⟨base_id, .tables⟩ ::
              (scanTables base_id scan_id ts st.data).calls)
            ++ [⟨base_id, .revoke⟩],
          none⟩ := by
  simp only [scanBase, requestWithRetry_fst, hg, ht, hr, hfail, hne]
  simp [h3]

theorem scanBase_revoke_other (env : BaseEnv) (scan_id now base_id : String)
    (st : Store) (ts : List TableEnv) (e : RemErr) (hg : env.grant = .ok ())
    (ht : env.tables = .ok ts)
    (hfail : (scanTables base_id scan_id ts st.data).failed = false)
    (hne : ts.isEmpty = false) (hr : env.revoke = .error e)
    (h3 : e.status ≠ 403) :
    scanBase env scan_id now base_id st
      = ⟨{ st with data := (scanTables base_id scan_id ts st.data).rows },
          [],
          (⟨base_id, .grant⟩ :: ⟨base_id, .tables⟩ ::
              (scanTables base_id scan_id ts st.data).calls)
            ++ [⟨base_id, .revoke⟩],
          some (.remote e)⟩ := by
  simp only [scanBase, requestWithRetry_fst, hg, ht, hr, hfail, hne]
  simp [h3]

theorem upsertData_mem_iff (base_id table_id scan_id : String)
    (rec : RecordData) (rows : List DataRow) (row : DataRow) :
    row ∈ upsertData base_id table_id scan_id rec rows ↔
      ((row ∈ rows ∧ row.record_id ≠ rec.id) ∨
        row = ⟨base_id, table_id, rec.id, rec.createdTime, rec.fields,
                some scan_id⟩) := by
  simp [upsertData, List.mem_filter, List.mem_append]

theorem upsertData_preserves_tagged (base_id table_id scan_id rid : String)
    (rec : RecordData) (rows : List DataRow)
    (h : ∃ row ∈ rows, row.record_id = rid ∧ row.base_id = base_id ∧
          row.scan_id = some scan_id) :
    ∃ row ∈ upsertData base_id table_id scan_id rec rows,
      row.record_id = rid ∧ row.base_id = base_id ∧
        row.scan_id = some scan_id := by
  obtain ⟨row, hm, hrid, hbid, hsid⟩ := h
  by_cases hc : row.record_id = rec.id
  · refine ⟨⟨base_id, table_id, rec.id, rec.createdTime, rec.fields,
      some scan_id⟩, (upsertData_mem_iff _ _ _ _ _ _).2 (Or.inr rfl),
      ?_, rfl, rfl⟩
    exact hc ▸ hrid
  · exact ⟨row, (upsertData_mem_iff _ _ _ _ _ _).2 (Or.inl ⟨hm, hc⟩),
      hrid, hbid, hsid⟩

theorem upsertData_establishes (base_id table_id scan_id : String)
    (rec : RecordData) (rows : List DataRow) :
    ∃ row ∈ upsertData base_id table_id scan_id rec rows,
      row.record_id = rec.id ∧ row.base_id = base_id ∧
        row.scan_id = some scan_id :=
  ⟨⟨base_id, table_id, rec.id, rec.createdTime, rec.fields, some scan_id⟩,
    (upsertData_mem_iff _ _ _ _ _ _).2 (Or.inr rfl), rfl, rfl, rfl⟩

theorem writeTableRecords_preserves_tagged
    (base_id table_id scan_id rid : String) (recs : List RecordData) :
    ∀ rows : List DataRow,
      (∃ row ∈ rows, row.record_id = rid ∧ row.base_id = base_id ∧
        row.scan_id = some scan_id) →
      ∃ row ∈ writeTableRecords base_id table_id scan_id recs rows,
        row.record_id = rid ∧ row.base_id = base_id ∧
          row.scan_id = some scan_id := by
  induction recs with
  | nil => intro rows h; exact h
  | cons rec recs ih =>
    intro rows h
    exact ih _ (upsertData_preserves_tagged _ _ _ _ _ _ h)

theorem writeTableRecords_establishes (base_id table_id scan_id : String)
    (recs : List RecordData) :
    ∀ rows : List DataRow, ∀ rec ∈ recs,
      ∃ row ∈ writeTableRecords base_id table_id scan_id recs rows,
        row.record_id = rec.id ∧ row.base_id = base_id ∧
          row.scan_id = some scan_id := by
  induction recs with
  | nil => intro rows rec h; cases h
  | cons r recs ih =>
    intro rows rec h
    rcases List.mem_cons.1 h with heq | hmem
    · subst heq
      simp only [writeTableRecords]
      exact writeTableRecords_preserves_tagged base_id table_id scan_id
        rec.id recs _ (upsertData_establishes base_id table_id scan_id rec rows)
    · simp only [writeTableRecords]
      exact ih _ rec hmem

theorem scanTables_preserves_tagged (base_id scan_id rid : String)
    (ts : List TableEnv) :
    ∀ rows : List DataRow,
      (∃ row ∈ rows, row.record_id = rid ∧ row.base_id = base_id ∧
        row.scan_id = some scan_id) →
      ∃ row ∈ (scanTables base_id scan_id ts rows).rows,
        row.record_id = rid ∧ row.base_id = base_id ∧
          row.scan_id = some scan_id := by
  induction ts with
  | nil => intro rows h; exact h
  | cons t ts ih =>
    intro rows h
    cases hf : t.fetch with
    | error e => simpa [scanTables, requestWithRetry_fst, hf] using h
    | ok recs =>
      have h2 := writeTableRecords_preserves_tagged base_id t.id scan_id
        rid recs rows h
      simpa [scanTables, requestWithRetry_fst, hf] using ih _ h2

theorem scanTables_prefix_persist (base_id scan_id : String)
    (ts1 : List TableEnv) :
    ∀ (rest : List TableEnv) (rows : List DataRow),
      (∀ u ∈ ts1, ∃ rs, u.fetch = .ok rs) →
      ∀ t ∈ ts1, ∀ recs, t.fetch = .ok recs → ∀ rec ∈ recs,
        ∃ row ∈ (scanTables base_id scan_id (ts1 ++ rest) rows).rows,
          row.record_id = rec.id ∧ row.base_id = base_id ∧
            row.scan_id = some scan_id := by
  induction ts1 with
  | nil => intro rest rows h1 t ht; cases ht
  | cons u ts1 ih =>
    intro rest rows h1 t ht recs hok rec hrec
    obtain ⟨rs, hrs⟩ := h1 u (List.mem_cons_self u ts1)
    rcases List.mem_cons.1 ht with heq | hmem
    · subst heq
      rw [hok] at hrs
      injection hrs with hrr
      subst hrr
      have base := writeTableRecords_establishes base_id t.id scan_id
        recs rows rec hrec
      have h2 := scanTables_preserves_tagged base_id scan_id rec.id
        (ts1 ++ rest) _ base
      simpa [scanTables, requestWithRetry_fst, hok] using h2
    · have h2 := ih rest (writeTableRecords base_id u.id scan_id rs rows)
        (fun v hv => h1 v (List.mem_cons_of_mem u hv)) t hmem recs hok rec hrec
      simpa [scanTables, requestWithRetry_fst, hrs] using h2

theorem upsertData_preserves_key (base_id table_id scan_id k : String)
    (rec : RecordData) (rows : List DataRow)
    (h : ∃ r ∈ rows, r.record_id = k) :
    ∃ r ∈ upsertData base_id table_id scan_id rec rows, r.record_id = k := by
  obtain ⟨r, hm, hk⟩ := h
  by_cases hc : r.record_id = rec.id
  · exact ⟨⟨base_id, table_id, rec.id, rec.createdTime, rec.fields,
      some scan_id⟩, (upsertData_mem_iff _ _ _ _ _ _).2 (Or.inr rfl),
      hc ▸ hk⟩
  · exact ⟨r, (upsertData_mem_iff _ _ _ _ _ _).2 (Or.inl ⟨hm, hc⟩), hk⟩

theorem writeTableRecords_preserves_key (base_id table_id scan_id k : String)
    (recs : List RecordData) :
    ∀ rows : List DataRow, (∃ r ∈ rows, r.record_id = k) →
      ∃ r ∈ writeTableRecords base_id table_id scan_id recs rows,
        r.record_id = k := by
  induction recs with
  | nil => intro rows h; exact h
  | cons rec recs ih =>
    intro rows h
    exact ih _ (upsertData_preserves_key _ _ _ _ _ _ h)

theorem scanTables_preserves_key (base_id scan_id k : String)
    (ts : List TableEnv) :
    ∀ rows : List DataRow, (∃ r ∈ rows, r.record_id = k) →
      ∃ r ∈ (scanTables base_id scan_id ts rows).rows, r.record_id = k := by
  induction ts with
  | nil => intro rows h; exact h
  | cons t ts ih =>
    intro rows h
    cases hf : t.fetch with
    | error e => simpa [scanTables, requestWithRetry_fst, hf] using h
    | ok recs =>
      have h2 := writeTableRecords_preserves_key base_id t.id scan_id k
        recs rows h
      simpa [scanTables, requestWithRetry_fst, hf] using ih _ h2

theorem updateBaseScan_preserves_id (base_id scan_id now k : String)
    (rows : List BaseRow) (h : ∃ b ∈ rows, b.id = k) :
    ∃ b ∈ updateBaseScan base_id scan_id now rows, b.id = k := by
  obtain ⟨b, hm, hk⟩ := h
  by_cases hc : b.id = base_id
  · exact ⟨{ b with scan_time := some now, scan_id := some scan_id },
      List.mem_map.2 ⟨b, hm, by simp [hc]⟩, hk⟩
  · exact ⟨b, List.mem_map.2 ⟨b, hm, by simp [hc]⟩, hk⟩

theorem scanTables_calls (base_id scan_id : String) (ts : List TableEnv) :
    ∀ rows : List DataRow, ∀ c ∈ (scanTables base_id scan_id ts rows).calls,
      c.base_id = base_id := by
  induction ts with
  | nil => intro rows c hc; cases hc
  | cons t ts ih =>
    intro rows c hc
    cases hf : t.fetch with
    | error e =>
      rw [show scanTables base_id scan_id (t :: ts) rows
          = ⟨rows, [⟨base_id, .fetch t.id⟩], true⟩ by
        simp [scanTables, requestWithRetry_fst, hf]] at hc
      simp at hc
      simp [hc]
    | ok recs =>
      rw [show (scanTables base_id scan_id (t :: ts) rows).calls
          = ⟨base_id, .fetch t.id⟩ ::
            (scanTables base_id scan_id ts
              (writeTableRecords base_id t.id scan_id recs rows)).calls by
        simp [scanTables, requestWithRetry_fst, hf]] at hc
      rcases List.mem_cons.1 hc with heq | hmem
      · simp [heq]
      · exact ih _ c hmem

theorem scanBase_store_shape (env : BaseEnv) (scan_id now base_id : String)
    (st : Store) :
    ((scanBase env scan_id now base_id st).store.bases = st.bases ∨
      (scanBase env scan_id now base_id st).store.bases
        = updateBaseScan base_id scan_id now st.bases) ∧
    ((scanBase env scan_id now base_id st).store.data = st.data ∨
      ∃ ts, env.tables = .ok ts ∧
        (scanBase env scan_id now base_id st).store.data
          = (scanTables base_id scan_id ts st.data).rows) := by
  cases hg : env.grant with
  | error e =>
    by_cases h1 : e.status = 404 ∨ e.notFound = true
    · rw [scanBase_grant_notfound env scan_id now base_id st e hg h1]
      exact ⟨Or.inl rfl, Or.inl rfl⟩
    · by_cases h2 : e.status = 403
      · rw [scanBase_grant_forbidden env scan_id now base_id st e hg h1 h2]
        exact ⟨Or.inl rfl, Or.inl rfl⟩
      · rw [scanBase_grant_other env scan_id now base_id st e hg h1 h2]
        exact ⟨Or.inl rfl, Or.inl rfl⟩
  | ok a =>
    cases a
    cases ht : env.tables with
    | error e =>
      by_cases h2 : e.status = 403
      · rw [scanBase_tables_forbidden env scan_id now base_id st e hg ht h2]
        exact ⟨Or.inl rfl, Or.inl rfl⟩
      · rw [scanBase_tables_other env scan_id now base_id st e hg ht h2]
        exact ⟨Or.inl rfl, Or.inl rfl⟩
    | ok ts =>
      by_cases hfail : (scanTables base_id scan_id ts st.data).failed = true
      · rw [scanBase_table_failure env scan_id now base_id st ts hg ht hfail]
        exact ⟨Or.inl rfl, Or.inr ⟨ts, rfl, rfl⟩⟩
      · rw [Bool.not_eq_true] at hfail
        cases hempty : ts.isEmpty with
        | true =>
          have hnil := List.isEmpty_iff.1 hempty
          subst hnil
          rw [scanBase_empty_tables env scan_id now base_id st hg ht]
          exact ⟨Or.inl rfl, Or.inl rfl⟩
        | false =>
          cases hr : env.revoke with
          | ok a2 =>
            cases a2
            rw [scanBase_commit_revoke_ok env scan_id now base_id st ts
              hg ht hfail hempty hr]
            exact ⟨Or.inr rfl, Or.inr ⟨ts, rfl, rfl⟩⟩
          | error e =>
            by_cases h3 : e.status = 403
            · rw [scanBase_commit_revoke_forbidden env scan_id now base_id
                st ts e hg ht hfail hempty hr h3]
              exact ⟨Or.inr rfl, Or.inr ⟨ts, rfl, rfl⟩⟩
            · rw [scanBase_revoke_other env scan_id now base_id st ts e
                hg ht hfail hempty hr h3]
              exact ⟨Or.inl rfl, Or.inr ⟨ts, rfl, rfl⟩⟩

theorem scanBase_bases_changed (env : BaseEnv) (scan_id now base_id : String)
    (st : Store)
    (h : (scanBase env scan_id now base_id st).store.bases ≠ st.bases) :
    (scanBase env scan_id now base_id st).store.bases
      = updateBaseScan base_id scan_id now st.bases ∧
    env.grant = .ok () ∧
    ∃ ts, env.tables = .ok ts ∧ ts ≠ [] ∧
      ∀ t ∈ ts, ∃ recs, t.fetch = .ok recs := by
  cases hg : env.grant with
  | error e =>
    by_cases h1 : e.status = 404 ∨ e.notFound = true
    · rw [scanBase_grant_notfound env scan_id now base_id st e hg h1] at h
      exact absurd rfl h
    · by_cases h2 : e.status = 403
      · rw [scanBase_grant_forbidden env scan_id now base_id st e hg h1 h2]
          at h
        exact absurd rfl h
      · rw [scanBase_grant_other env scan_id now base_id st e hg h1 h2] at h
        exact absurd rfl h
  | ok a =>
    cases a
    cases ht : env.tables with
    | error e =>
      by_cases h2 : e.status = 403
      · rw [scanBase_tables_forbidden env scan_id now base_id st e hg ht h2]
          at h
        exact absurd rfl h
      · rw [scanBase_tables_other env scan_id now base_id st e hg ht h2] at h
        exact absurd rfl h
    | ok ts =>
      by_cases hfail : (scanTables base_id scan_id ts st.data).failed = true
      · rw [scanBase_table_failure env scan_id now base_id st ts hg ht hfail]
          at h
        exact absurd rfl h
      · rw [Bool.not_eq_true] at hfail
        cases hempty : ts.isEmpty with
        | true =>
          have hnil := List.isEmpty_iff.1 hempty
          subst hnil
          rw [scanBase_empty_tables env scan_id now base_id st hg ht] at h
          exact absurd rfl h
        | false =>
          have hts : ts ≠ [] := by
            intro hc
            subst hc
            simp at hempty
          have hall := scanTables_not_failed base_id scan_id ts st.data hfail
          cases hr : env.revoke with
          | ok a2 =>
            cases a2
            rw [scanBase_commit_revoke_ok env scan_id now base_id st ts
              hg ht hfail hempty hr]
            exact ⟨rfl, rfl, ts, rfl, hts, hall⟩
          | error e =>
            by_cases h3 : e.status = 403
            · rw [scanBase_commit_revoke_forbidden env scan_id now base_id
                st ts e hg ht hfail hempty hr h3]
              exact ⟨rfl, rfl, ts, rfl, hts, hall⟩
            · rw [scanBase_revoke_other env scan_id now base_id st ts e
                hg ht hfail hempty hr h3] at h
              exact absurd rfl h

theorem scanBase_err_none_of_contained (env : BaseEnv)
    (scan_id now base_id : String) (st : Store)
    (hc : containedEnv env = true) :
    (scanBase env scan_id now base_id st).err = none := by
  cases hg : env.grant with
  | error e =>
    simp only [containedEnv, hg, Bool.or_eq_true, beq_iff_eq] at hc
    rcases hc with (h1 | h1) | h1
    · rw [scanBase_grant_notfound env scan_id now base_id st e hg
        (Or.inl h1)]
    · rw [scanBase_grant_notfound env scan_id now base_id st e hg
        (Or.inr h1)]
    · by_cases h0 : e.status = 404 ∨ e.notFound = true
      · rw [scanBase_grant_notfound env scan_id now base_id st e hg h0]
      · rw [scanBase_grant_forbidden env scan_id now base_id st e hg h0 h1]
  | ok a =>
    cases a
    cases ht : env.tables with
    | error e =>
      simp only [containedEnv, hg, ht, beq_iff_eq] at hc
      rw [scanBase_tables_forbidden env scan_id now base_id st e hg ht hc]
    | ok ts =>
      simp only [containedEnv, hg, ht, Bool.and_eq_true, Bool.or_eq_true,
        Bool.not_eq_true'] at hc
      obtain ⟨hne, hrest⟩ := hc
      by_cases hfail : (scanTables base_id scan_id ts st.data).failed = true
      · rw [scanBase_table_failure env scan_id now base_id st ts hg ht hfail]
      · rw [Bool.not_eq_true] at hfail
        have hany : ts.any (fun t => !exceptIsOk t.fetch) = false := by
          rw [← scanTables_failed_iff base_id scan_id ts st.data]
          exact hfail
        rcases hrest with hl | hr2
        · rw [hany] at hl
          cases hl
        · cases hrv : env.revoke with
          | ok a2 =>
            cases a2
            rw [scanBase_commit_revoke_ok env scan_id now base_id st ts
              hg ht hfail hne hrv]
          | error e2 =>
            simp only [hrv, beq_iff_eq] at hr2
            rw [scanBase_commit_revoke_forbidden env scan_id now base_id
              st ts e2 hg ht hfail hne hrv hr2]

theorem scanBase_calls_base (env : BaseEnv) (scan_id now base_id : String)
    (st : Store) :
    ∀ c ∈ (scanBase env scan_id now base_id st).calls,
      c.base_id = base_id := by
  intro c hc
  cases hg : env.grant with
  | error e =>
    by_cases h1 : e.status = 404 ∨ e.notFound = true
    · rw [scanBase_grant_notfound env scan_id now base_id st e hg h1] at hc
      simp at hc
      simp [hc]
    · by_cases h2 : e.status = 403
      · rw [scanBase_grant_forbidden env scan_id now base_id st e hg h1 h2]
          at hc
        simp at hc
        simp [hc]
      · rw [scanBase_grant_other env scan_id now base_id st e hg h1 h2] at hc
        simp at hc
        simp [hc]
  | ok a =>
    cases a
    cases ht : env.tables with
    | error e =>
      by_cases h2 : e.status = 403
      · rw [scanBase_tables_forbidden env scan_id now base_id st e hg ht h2]
          at hc
        simp at hc
        rcases hc with h | h <;> simp [h]
      · rw [scanBase_tables_other env scan_id now base_id st e hg ht h2] at hc
        simp at hc
        rcases hc with h | h <;> simp [h]
    | ok ts =>
      by_cases hfail : (scanTables base_id scan_id ts st.data).failed = true
      · rw [scanBase_table_failure env scan_id now base_id st ts hg ht hfail]
          at hc
        simp at hc
        rcases hc with h | h | h
        · simp [h]
        · simp [h]
        · exact scanTables_calls base_id scan_id ts st.data c h
      · rw [Bool.not_eq_true] at hfail
        cases hempty : ts.isEmpty with
        | true =>
          have hnil := List.isEmpty_iff.1 hempty
          subst hnil
          rw [scanBase_empty_tables env scan_id now base_id st hg ht] at hc
          simp at hc
          rcases hc with h | h <;> simp [h]
        | false =>
          have hmem3 : c = (⟨base_id, .grant⟩ : RemoteCall) ∨
              c = (⟨base_id, .tables⟩ : RemoteCall) ∨
              c ∈ (scanTables base_id scan_id ts st.data).calls ∨
              c = (⟨base_id, .revoke⟩ : RemoteCall) → c.base_id = base_id := by
            rintro (h | h | h | h)
            · simp [h]
            · simp [h]
            · exact scanTables_calls base_id scan_id ts st.data c h
            · simp [h]
          cases hrv : env.revoke with
          | ok a2 =>
            cases a2
            rw [scanBase_commit_revoke_ok env scan_id now base_id st ts
              hg ht hfail hempty hrv] at hc
            simp only [List.mem_append, List.mem_cons,
              List.mem_singleton] at hc
            apply hmem3
            tauto
          | error e2 =>
            by_cases h3 : e2.status = 403
            · rw [scanBase_commit_revoke_forbidden env scan_id now base_id
                st ts e2 hg ht hfail hempty hrv h3] at hc
              simp only [List.mem_append, List.mem_cons,
                List.mem_singleton] at hc
              apply hmem3
              tauto
            · rw [scanBase_revoke_other env scan_id now base_id st ts e2
                hg ht hfail hempty hrv h3] at hc
              simp only [List.mem_append, List.mem_cons,
                List.mem_singleton] at hc
              apply hmem3
              tauto

theorem scanBase_grant_called (env : BaseEnv) (scan_id now base_id : String)
    (st : Store) :
    (⟨base_id, .grant⟩ : RemoteCall)
      ∈ (scanBase env scan_id now base_id st).calls := by
  cases hg : env.grant with
  | error e =>
    by_cases h1 : e.status = 404 ∨ e.notFound = true
    · rw [scanBase_grant_notfound env scan_id now base_id st e hg h1]
      simp
    · by_cases h2 : e.status = 403
      · rw [scanBase_grant_forbidden env scan_id now base_id st e hg h1 h2]
        simp
      · rw [scanBase_grant_other env scan_id now base_id st e hg h1 h2]
        simp
  | ok a =>
    cases a
    cases ht : env.tables with
    | error e =>
      by_cases h2 : e.status = 403
      · rw [scanBase_tables_forbidden env scan_id now base_id st e hg ht h2]
        simp
      · rw [scanBase_tables_other env scan_id now base_id st e hg ht h2]
        simp
    | ok ts =>
      by_cases hfail : (scanTables base_id scan_id ts st.data).failed = true
      · rw [scanBase_table_failure env scan_id now base_id st ts hg ht hfail]
        simp
      · rw [Bool.not_eq_true] at hfail
        cases hempty : ts.isEmpty with
        | true =>
          have hnil := List.isEmpty_iff.1 hempty
          subst hnil
          rw [scanBase_empty_tables env scan_id now base_id st hg ht]
          simp
        | false =>
          cases hrv : env.revoke with
          | ok a2 =>
            cases a2
            rw [scanBase_commit_revoke_ok env scan_id now base_id st ts
              hg ht hfail hempty hrv]
            simp
          | error e2 =>
            by_cases h3 : e2.status = 403
            · rw [scanBase_commit_revoke_forbidden env scan_id now base_id
                st ts e2 hg ht hfail hempty hrv h3]
              simp
            · rw [scanBase_revoke_other env scan_id now base_id st ts e2
                hg ht hfail hempty hrv h3]
              simp

theorem scanBase_preserves_keys (env : BaseEnv)
    (scan_id now base_id : String) (st : Store) :
    (∀ k, (∃ b ∈ st.bases, b.id = k) →
      ∃ b ∈ (scanBase env scan_id now base_id st).store.bases, b.id = k) ∧
    (∀ k, (∃ r ∈ st.data, r.record_id = k) →
      ∃ r ∈ (scanBase env scan_id now base_id st).store.data,
        r.record_id = k) := by
  obtain ⟨hb, hd⟩ := scanBase_store_shape env scan_id now base_id st
  constructor
  · intro k hk
    rcases hb with h | h
    · rw [h]
      exact hk
    · rw [h]
      exact updateBaseScan_preserves_id base_id scan_id now k st.bases hk
  · intro k hk
    rcases hd with h | ⟨ts, _, h⟩
    · rw [h]
      exact hk
    · rw [h]
      exact scanTables_preserves_key base_id scan_id k ts st.data hk

theorem runScanAux_err_none (env : String → BaseEnv) (scan_id now : String)
    (l : List BaseRow) :
    ∀ st : Store, (∀ b ∈ l, containedEnv (env b.id) = true) →
      (runScanAux env scan_id now l st).err = none := by
  induction l with
  | nil => intro st _; rfl
  | cons b rest ih =>
    intro st h
    have hb := scanBase_err_none_of_contained (env b.id) scan_id now b.id st
      (h b (List.mem_cons_self b rest))
    simp only [runScanAux, hb]
    exact ih _ (fun b2 h2 => h b2 (List.mem_cons_of_mem b h2))

theorem runScanAux_calls (env : String → BaseEnv) (scan_id now : String)
    (l : List BaseRow) :
    ∀ st : Store, ∀ c ∈ (runScanAux env scan_id now l st).calls,
      c.base_id ∈ l.map (fun b => b.id) := by
  induction l with
  | nil => intro st c hc; cases hc
  | cons b rest ih =>
    intro st c hc
    cases hs : (scanBase (env b.id) scan_id now b.id st).err with
    | some e =>
      simp only [runScanAux, hs] at hc
      have := scanBase_calls_base (env b.id) scan_id now b.id st c hc
      simp [this]
    | none =>
      simp only [runScanAux, hs] at hc
      rcases List.mem_append.1 hc with h | h
      · have := scanBase_calls_base (env b.id) scan_id now b.id st c h
        simp [this]
      · have := ih _ c h
        simp only [List.map_cons, List.mem_cons]
        exact Or.inr (by simpa using this)

theorem runScanAux_grant_called (env : String → BaseEnv)
    (scan_id now : String) (l : List BaseRow) :
    ∀ st : Store, (runScanAux env scan_id now l st).err = none →
      ∀ b ∈ l, (⟨b.id, .grant⟩ : RemoteCall)
        ∈ (runScanAux env scan_id now l st).calls := by
  induction l with
  | nil => intro st _ b hb; cases hb
  | cons b rest ih =>
    intro st herr b2 hb2
    cases hs : (scanBase (env b.id) scan_id now b.id st).err with
    | some e =>
      simp only [runScanAux, hs] at herr
      cases herr
    | none =>
      simp only [runScanAux, hs] at herr ⊢
      rcases List.mem_cons.1 hb2 with heq | hmem
      · subst heq
        exact List.mem_append_left _
          (scanBase_grant_called (env b2.id) scan_id now b2.id st)
      · exact List.mem_append_right _ (ih _ herr b2 hmem)

theorem runScanAux_preserves_keys (env : String → BaseEnv)
    (scan_id now : String) (l : List BaseRow) :
    ∀ st : Store,
      (∀ k, (∃ b ∈ st.bases, b.id = k) →
        ∃ b ∈ (runScanAux env scan_id now l st).store.bases, b.id = k) ∧
      (∀ k, (∃ r ∈ st.data, r.record_id = k) →
        ∃ r ∈ (runScanAux env scan_id now l st).store.data,
          r.record_id = k) := by
  induction l with
  | nil => intro st; exact ⟨fun k h => h, fun k h => h⟩
  | cons b rest ih =>
    intro st
    obtain ⟨hb1, hd1⟩ := scanBase_preserves_keys (env b.id) scan_id now b.id st
    cases hs : (scanBase (env b.id) scan_id now b.id st).err with
    | some e =>
      simp only [runScanAux, hs]
      exact ⟨hb1, hd1⟩
    | none =>
      obtain ⟨hb2, hd2⟩ := ih (scanBase (env b.id) scan_id now b.id st).store
      simp only [runScanAux, hs]
      exact ⟨fun k h => hb2 k (hb1 k h), fun k h => hd2 k (hd1 k h)⟩

theorem run_no_delete_eq (env : String → BaseEnv) (scan_id now : String)
    (st : Store) :
    run env scan_id now false st = runScan env scan_id now st := by
  simp only [run]
  cases h : (runScan env scan_id now st).err with
  | some e => simp [h]
  | none => simp [h]

theorem run_err_eq (env : String → BaseEnv) (scan_id now : String)
    (delete_data : Bool) (st : Store) :
    (run env scan_id now delete_data st).err
      = (runScan env scan_id now st).err := by
  simp only [run]
  cases h : (runScan env scan_id now st).err with
  | some e => simp [h]
  | none =>
    by_cases hd : delete_data = true <;> simp [h, hd]

theorem deleteKeyed_mem {α : Type} (key : α → String)
    (tag : α → Option String) (scan_id : String) (rows : List α)
    (hnd : (rows.map key).Nodup) (r : α) :
    r ∈ deleteKeyed key tag scan_id rows ↔
      (r ∈ rows ∧ tag r = some scan_id) := by
  constructor
  · intro hr
    simp only [deleteKeyed, List.mem_filter, decide_eq_true_eq] at hr
    obtain ⟨hmem, hnotin⟩ := hr
    refine ⟨hmem, ?_⟩
    by_contra hne
    exact hnotin (List.mem_map.2
      ⟨r, List.mem_filter.2 ⟨hmem, by simpa using hne⟩, rfl⟩)
  · rintro ⟨hmem, htag⟩
    simp only [deleteKeyed, List.mem_filter, decide_eq_true_eq]
    refine ⟨hmem, ?_⟩
    intro hin
    obtain ⟨x, hx, hkey⟩ := List.mem_map.1 hin
    obtain ⟨hxmem, hxtag⟩ := List.mem_filter.1 hx
    have hxr : x = r := List.inj_on_of_nodup_map hnd hxmem hmem hkey
    subst hxr
    simp only [decide_eq_true_eq] at hxtag
    exact hxtag htag

/-- C1: a base's stored scan_id is set to the run's identifier only after
every table of the base has been written without error (the `bases` table
changes only via the final commit, which requires the grant, a nonempty
table list, every table fetch, and hence the whole base to have succeeded);
and when any table fails after retries, the base is added to the skip list,
no error propagates, and the `bases` table — hence the base's scan_id — is
left unchanged. -/
theorem claim1_scan_id_commit_atomic (env : BaseEnv)
    (scan_id now base_id : String) (st : Store) :
    ((scanBase env scan_id now base_id st).store.bases ≠ st.bases →
      (scanBase env scan_id now base_id st).store.bases
        = updateBaseScan base_id scan_id now st.bases ∧
      env.grant = .ok () ∧
      ∃ ts, env.tables = .ok ts ∧ ts ≠ [] ∧
        ∀ t ∈ ts, ∃ recs, t.fetch = .ok recs) ∧
    (∀ ts t e, env.grant = .ok () → env.tables = .ok ts → t ∈ ts →
      t.fetch = .error e →
      (scanBase env scan_id now base_id st).store.bases = st.bases ∧
      base_id ∈ (scanBase env scan_id now base_id st).skips ∧
      (scanBase env scan_id now base_id st).err = none) := by
  constructor
  · exact scanBase_bases_changed env scan_id now base_id st
  · intro ts t e hg ht hmem he
    have hfail := scanTables_failed_of_mem base_id scan_id ts st.data t
      hmem e he
    rw [scanBase_table_failure env scan_id now base_id st ts hg ht hfail]
    exact ⟨rfl, by simp, rfl⟩

/-- C1 witness: a concrete base whose only table times out is skipped with
its `bases` row unchanged and no propagated error. -/
theorem claim1_scan_id_commit_atomic_witness :
    (scanBase ⟨.ok (), .ok [⟨"t1", "T1", .error ⟨true, 0, false⟩⟩], .ok ()⟩
        "s" "n" "b1"
        ⟨[⟨"b1", "w", "nm", "c", none, none⟩], []⟩).store.bases
      = [⟨"b1", "w", "nm", "c", none, none⟩] ∧
    "b1" ∈ (scanBase ⟨.ok (), .ok [⟨"t1", "T1", .error ⟨true, 0, false⟩⟩],
        .ok ()⟩ "s" "n" "b1"
        ⟨[⟨"b1", "w", "nm", "c", none, none⟩], []⟩).skips ∧
    (scanBase ⟨.ok (), .ok [⟨"t1", "T1", .error ⟨true, 0, false⟩⟩], .ok ()⟩
        "s" "n" "b1"
        ⟨[⟨"b1", "w", "nm", "c", none, none⟩], []⟩).err = none :=
  (claim1_scan_id_commit_atomic
      ⟨.ok (), .ok [⟨"t1", "T1", .error ⟨true, 0, false⟩⟩], .ok ()⟩
      "s" "n" "b1" ⟨[⟨"b1", "w", "nm", "c", none, none⟩], []⟩).2
    [⟨"t1", "T1", .error ⟨true, 0, false⟩⟩]
    ⟨"t1", "T1", .error ⟨true, 0, false⟩⟩ ⟨true, 0, false⟩
    rfl rfl (by simp) rfl

/-- C2: the scan phase selects exactly the Base rows whose stored scan_id
is not the active identifier (NULL included); a base already tagged with
the identifier receives no remote call at all (under primary-key uniqueness
of base ids); and when the scan phase resolves, every selected base did get
its collaborator-grant call. -/
theorem claim2_selection_resumption (env : String → BaseEnv)
    (scan_id now : String) (st : Store) :
    (∀ b ∈ st.bases,
      (b ∈ selectBases st scan_id ↔ b.scan_id ≠ some scan_id)) ∧
    ((st.bases.map (fun b => b.id)).Nodup →
      ∀ b ∈ st.bases, b.scan_id = some scan_id →
        ∀ c ∈ (runScan env scan_id now st).calls, c.base_id ≠ b.id) ∧
    ((runScan env scan_id now st).err = none →
      ∀ b ∈ selectBases st scan_id,
        (⟨b.id, .grant⟩ : RemoteCall)
          ∈ (runScan env scan_id now st).calls) := by
  refine ⟨?_, ?_, ?_⟩
  · intro b hb
    simp [selectBases, List.mem_filter, hb]
  · intro hnd b hb htag c hc hceq
    have hmem := runScanAux_calls env scan_id now
      (selectBases st scan_id) st c hc
    obtain ⟨b2, hb2, hid⟩ := List.mem_map.1 hmem
    have hb2f : b2 ∈ st.bases ∧ ¬b2.scan_id = some scan_id := by
      simpa [selectBases, List.mem_filter] using hb2
    have heq2 : b2 = b :=
      List.inj_on_of_nodup_map hnd hb2f.1 hb (by rw [hid, hceq])
    subst heq2
    exact hb2f.2 htag
  · intro herr b hb
    exact runScanAux_grant_called env scan_id now
      (selectBases st scan_id) st herr b hb

/-- C2 witness: with one base tagged "s" and one untagged, the untagged base
is selected and granted, and the grant call recorded for it does not target
the tagged base. -/
theorem claim2_selection_resumption_witness :
    ((⟨"b2", "w", "nm", "c", none, none⟩ : BaseRow)
        ∈ selectBases ⟨[⟨"b1", "w", "nm", "c", some "t", some "s"⟩,
            ⟨"b2", "w", "nm", "c", none, none⟩], []⟩ "s"
      ↔ (⟨"b2", "w", "nm", "c", none, none⟩ : BaseRow).scan_id ≠ some "s") ∧
    (⟨"b2", .grant⟩ : RemoteCall)
      ∈ (runScan (fun _ => ⟨.error ⟨false, 404, false⟩, .ok [], .ok ()⟩)
          "s" "n" ⟨[⟨"b1", "w", "nm", "c", some "t", some "s"⟩,
            ⟨"b2", "w", "nm", "c", none, none⟩], []⟩).calls ∧
    (⟨"b2", .grant⟩ : RemoteCall).base_id ≠ "b1" := by
  have h := claim2_selection_resumption
    (fun _ => ⟨.error ⟨false, 404, false⟩, .ok [], .ok ()⟩) "s" "n"
    ⟨[⟨"b1", "w", "nm", "c", some "t", some "s"⟩,
      ⟨"b2", "w", "nm", "c", none, none⟩], []⟩
  have hcall := h.2.2 (by decide) ⟨"b2", "w", "nm", "c", none, none⟩
    (by decide)
  refine ⟨h.1 ⟨"b2", "w", "nm", "c", none, none⟩ (by decide), hcall, ?_⟩
  exact h.2.1 (by decide) ⟨"b1", "w", "nm", "c", some "t", some "s"⟩
    (by decide) rfl ⟨"b2", .grant⟩ hcall

/-- C3: with deletion requested, reconciliation keeps exactly the rows whose
scan_id equals the current identifier and removes every row whose scan_id
differs or is NULL (for the `bases` table keyed by id and the `data` table
keyed by record_id, under primary-key uniqueness); and `run` with the
delete flag applies it — bases then records — to the post-scan store. -/
theorem claim3_reconciliation_deletes_stale (scan_id : String) (st : Store) :
    ((st.bases.map (fun b => b.id)).Nodup →
      ∀ b, b ∈ (reconcile scan_id st).bases ↔
        (b ∈ st.bases ∧ b.scan_id = some scan_id)) ∧
    ((st.data.map (fun r => r.record_id)).Nodup →
      ∀ r, r ∈ (reconcile scan_id st).data ↔
        (r ∈ st.data ∧ r.scan_id = some scan_id)) ∧
    (∀ (env : String → BaseEnv) (now : String),
      (runScan env scan_id now st).err = none →
      (run env scan_id now true st).store
        = reconcile scan_id (runScan env scan_id now st).store) := by
  refine ⟨?_, ?_, ?_⟩
  · intro hnd b
    exact deleteKeyed_mem (fun b => b.id) (fun b => b.scan_id) scan_id
      st.bases hnd b
  · intro hnd r
    exact deleteKeyed_mem (fun r => r.record_id) (fun r => r.scan_id) scan_id
      st.data hnd r
  · intro env now herr
    simp [run, herr]

/-- C3 witness: the spec scenario.  Bases B1 (tag s), B2 (tag old),
B3 (tag NULL) with matching record rows: reconciliation removes B2 and B3
and their record rows and retains B1 and its record row. -/
theorem claim3_reconciliation_deletes_stale_witness :
    (⟨"b1", "w", "nm", "c", some "t", some "s"⟩ : BaseRow)
      ∈ (reconcile "s" ⟨[⟨"b1", "w", "nm", "c", some "t", some "s"⟩,
          ⟨"b2", "w", "nm", "c", some "t", some "old"⟩,
          ⟨"b3", "w", "nm", "c", none, none⟩],
          [⟨"b1", "tb", "r1", "d", "c", some "s"⟩,
           ⟨"b2", "tb", "r2", "d", "c", some "old"⟩,
           ⟨"b3", "tb", "r3", "d", "c", none⟩]⟩).bases ∧
    ¬ (⟨"b2", "w", "nm", "c", some "t", some "old"⟩ : BaseRow)
      ∈ (reconcile "s" ⟨[⟨"b1", "w", "nm", "c", some "t", some "s"⟩,
          ⟨"b2", "w", "nm", "c", some "t", some "old"⟩,
          ⟨"b3", "w", "nm", "c", none, none⟩],
          [⟨"b1", "tb", "r1", "d", "c", some "s"⟩,
           ⟨"b2", "tb", "r2", "d", "c", some "old"⟩,
           ⟨"b3", "tb", "r3", "d", "c", none⟩]⟩).bases ∧
    ¬ (⟨"b3", "w", "nm", "c", none, none⟩ : BaseRow)
      ∈ (reconcile "s" ⟨[⟨"b1", "w", "nm", "c", some "t", some "s"⟩,
          ⟨"b2", "w", "nm", "c", some "t", some "old"⟩,
          ⟨"b3", "w", "nm", "c", none, none⟩],
          [⟨"b1", "tb", "r1", "d", "c", some "s"⟩,
           ⟨"b2", "tb", "r2", "d", "c", some "old"⟩,
           ⟨"b3", "tb", "r3", "d", "c", none⟩]⟩).bases ∧
    (⟨"b1", "tb", "r1", "d", "c", some "s"⟩ : DataRow)
      ∈ (reconcile "s" ⟨[⟨"b1", "w", "nm", "c", some "t", some "s"⟩,
          ⟨"b2", "w", "nm", "c", some "t", some "old"⟩,
          ⟨"b3", "w", "nm", "c", none, none⟩],
          [⟨"b1", "tb", "r1", "d", "c", some "s"⟩,
           ⟨"b2", "tb", "r2", "d", "c", some "old"⟩,
           ⟨"b3", "tb", "r3", "d", "c", none⟩]⟩).data ∧
    ¬ (⟨"b2", "tb", "r2", "d", "c", some "old"⟩ : DataRow)
      ∈ (reconcile "s" ⟨[⟨"b1", "w", "nm", "c", some "t", some "s"⟩,
          ⟨"b2", "w", "nm", "c", some "t", some "old"⟩,
          ⟨"b3", "w", "nm", "c", none, none⟩],
          [⟨"b1", "tb", "r1", "d", "c", some "s"⟩,
           ⟨"b2", "tb", "r2", "d", "c", some "old"⟩,
           ⟨"b3", "tb", "r3", "d", "c", none⟩]⟩).data ∧
    ¬ (⟨"b3", "tb", "r3", "d", "c", none⟩ : DataRow)
      ∈ (reconcile "s" ⟨[⟨"b1", "w", "nm", "c", some "t", some "s"⟩,
          ⟨"b2", "w", "nm", "c", some "t", some "old"⟩,
          ⟨"b3", "w", "nm", "c", none, none⟩],
          [⟨"b1", "tb", "r1", "d", "c", some "s"⟩,
           ⟨"b2", "tb", "r2", "d", "c", some "old"⟩,
           ⟨"b3", "tb", "r3", "d", "c", none⟩]⟩).data := by
  have h := claim3_reconciliation_deletes_stale "s"
    ⟨[⟨"b1", "w", "nm", "c", some "t", some "s"⟩,
      ⟨"b2", "w", "nm", "c", some "t", some "old"⟩,
      ⟨"b3", "w", "nm", "c", none, none⟩],
      [⟨"b1", "tb", "r1", "d", "c", some "s"⟩,
       ⟨"b2", "tb", "r2", "d", "c", some "old"⟩,
       ⟨"b3", "tb", "r3", "d", "c", none⟩]⟩
  refine ⟨?_, ?_, ?_, ?_, ?_, ?_⟩
  · exact (h.1 (by decide) _).2 ⟨by decide, rfl⟩
  · intro hm
    exact absurd ((h.1 (by decide) _).1 hm).2 (by decide)
  · intro hm
    exact absurd ((h.1 (by decide) _).1 hm).2 (by decide)
  · exact (h.2.1 (by decide) _).2 ⟨by decide, rfl⟩
  · intro hm
    exact absurd ((h.2.1 (by decide) _).1 hm).2 (by decide)
  · intro hm
    exact absurd ((h.2.1 (by decide) _).1 hm).2 (by decide)

theorem retryLoop_timeout {α : Type} (e : RemErr) (ht : e.isTimeout = true) :
    ∀ n, retryLoop (α := α) e n = (.error e, n + 1, 10000 * n) := by
  intro n
  induction n with
  | zero => simp [retryLoop]
  | succ n ih => simp [retryLoop, ht, ih, Nat.mul_succ]

/-- C4 counterexample: a request that keeps timing out is awaited 6 times
(the initial attempt plus 5 retries), not at most 5 attempts total as the
claim states. -/
theorem claim4_retry_counterexample :
    (requestWithRetry (α := Unit) (.error ⟨true, 500, false⟩) 0).2.1 = 6 ∧
    ¬ ((requestWithRetry (α := Unit) (.error ⟨true, 500, false⟩) 0).2.1
        ≤ 5) := by
  constructor <;> decide

/-- C4 amended: the retry executor propagates a success unchanged after one
attempt; propagates any non-timeout failure unchanged after one attempt;
and on a timeout-class failure sleeps a fixed 10 seconds per retry and
retries up to 5 times — 6 attempts total, 50 seconds of backoff — after
which the original failure is propagated unchanged. -/
theorem claim4_retry_amended (α : Type) (req : Except RemErr α) :
    (∀ a, req = .ok a → requestWithRetry req 0 = (.ok a, 1, 0)) ∧
    (∀ e, req = .error e → e.isTimeout = false →
      requestWithRetry req 0 = (.error e, 1, 0)) ∧
    (∀ e, req = .error e → e.isTimeout = true →
      requestWithRetry req 0 = (.error e, 6, 50000)) := by
  refine ⟨?_, ?_, ?_⟩
  · intro a h
    subst h
    rfl
  · intro e h hf
    subst h
    simp [requestWithRetry, retryLoop, hf]
  · intro e h ht
    subst h
    have h5 := retryLoop_timeout (α := α) e ht 5
    simpa [requestWithRetry] using h5

/-- C4 amended witness: concrete instances of all three cases. -/
theorem claim4_retry_amended_witness :
    requestWithRetry (α := Unit) (.ok ()) 0 = (.ok (), 1, 0) ∧
    requestWithRetry (α := Unit) (.error ⟨false, 500, false⟩) 0
      = (.error ⟨false, 500, false⟩, 1, 0) ∧
    requestWithRetry (α := Unit) (.error ⟨true, 500, false⟩) 0
      = (.error ⟨true, 500, false⟩, 6, 50000) :=
  ⟨(claim4_retry_amended Unit (.ok ())).1 () rfl,
   (claim4_retry_amended Unit (.error ⟨false, 500, false⟩)).2.1
     ⟨false, 500, false⟩ rfl rfl,
   (claim4_retry_amended Unit (.error ⟨true, 500, false⟩)).2.2
     ⟨true, 500, false⟩ rfl rfl⟩

/-- C5 counterexample: a collaborator-grant failure with an unclassified
status (500) while scanning a base is rethrown and rejects the whole run —
the failure is not converted to a skip-list entry and the run does not
terminate with full success, contradicting the claim that every base-scan
failure is contained to its base. -/
theorem claim5_containment_counterexample :
    (run (fun _ => ⟨.error ⟨false, 500, false⟩, .ok [], .ok ()⟩) "s" "n"
        false ⟨[⟨"b1", "w", "nm", "c", none, none⟩], []⟩).err
      = some (.remote ⟨false, 500, false⟩) ∧
    (run (fun _ => ⟨.error ⟨false, 500, false⟩, .ok [], .ok ()⟩) "s" "n"
        false ⟨[⟨"b1", "w", "nm", "c", none, none⟩], []⟩).skips = [] := by
  constructor <;> decide

/-- C5 amended: failures the script classifies are contained and never fail
the run — in particular any table-fetch failure (after retries) only skips
its base — but an unclassified failure of a per-base call (grant with a
status other than 404/403 and no NOT_FOUND payload, table-list fetch with a
status other than 403, revoke with a status other than 403, or the
zero-tables reduce TypeError) is rethrown and rejects the whole run.
Stated positively: when every selected base's environment is contained,
the run's error is none whatever the table-fetch outcomes are. -/
theorem claim5_containment_amended (env : String → BaseEnv)
    (scan_id now : String) (delete_data : Bool) (st : Store)
    (h : ∀ b ∈ selectBases st scan_id, containedEnv (env b.id) = true) :
    (run env scan_id now delete_data st).err = none := by
  rw [run_err_eq]
  exact runScanAux_err_none env scan_id now (selectBases st scan_id) st h

/-- C5 amended witness: a base whose only table fails with an unclassified
status is contained — the run still resolves. -/
theorem claim5_containment_amended_witness :
    (run (fun _ => ⟨.ok (),
        .ok [⟨"t1", "T1", .error ⟨false, 500, false⟩⟩], .ok ()⟩) "s" "n"
        false ⟨[⟨"b1", "w", "nm", "c", none, none⟩], []⟩).err = none :=
  claim5_containment_amended
    (fun _ => ⟨.ok (), .ok [⟨"t1", "T1", .error ⟨false, 500, false⟩⟩],
      .ok ()⟩) "s" "n" false
    ⟨[⟨"b1", "w", "nm", "c", none, none⟩], []⟩ (by decide)

/-- C6: when the collaborator-grant call for a base fails as not-found
(status 404 or NOT_FOUND payload), the base scan records zero work and
returns without error, without a skip-list entry and without touching the
store (so the base's scan_id is unchanged); when it fails as forbidden
(status 403, not classified as not-found), the base id is added to the skip
list and the scan likewise returns without error and without touching the
store. -/
theorem claim6_grant_failure_handling (env : BaseEnv)
    (scan_id now base_id : String) (st : Store) :
    (∀ e, env.grant = .error e → (e.status = 404 ∨ e.notFound = true) →
      scanBase env scan_id now base_id st
        = ⟨st, [], [⟨base_id, .grant⟩], none⟩) ∧
    (∀ e, env.grant = .error e → ¬(e.status = 404 ∨ e.notFound = true) →
      e.status = 403 →
      scanBase env scan_id now base_id st
        = ⟨st, [base_id], [⟨base_id, .grant⟩], none⟩) :=
  ⟨fun e hg h => scanBase_grant_notfound env scan_id now base_id st e hg h,
   fun e hg hn h3 =>
     scanBase_grant_forbidden env scan_id now base_id st e hg hn h3⟩

/-- C6 witness: concrete not-found and forbidden grant failures. -/
theorem claim6_grant_failure_handling_witness :
    scanBase ⟨.error ⟨false, 404, false⟩, .ok [], .ok ()⟩ "s" "n" "b1"
        ⟨[⟨"b1", "w", "nm", "c", none, some "old"⟩], []⟩
      = ⟨⟨[⟨"b1", "w", "nm", "c", none, some "old"⟩], []⟩, [],
          [⟨"b1", .grant⟩], none⟩ ∧
    scanBase ⟨.error ⟨false, 403, false⟩, .ok [], .ok ()⟩ "s" "n" "b1"
        ⟨[⟨"b1", "w", "nm", "c", none, some "old"⟩], []⟩
      = ⟨⟨[⟨"b1", "w", "nm", "c", none, some "old"⟩], []⟩, ["b1"],
          [⟨"b1", .grant⟩], none⟩ :=
  ⟨(claim6_grant_failure_handling
      ⟨.error ⟨false, 404, false⟩, .ok [], .ok ()⟩ "s" "n" "b1"
      ⟨[⟨"b1", "w", "nm", "c", none, some "old"⟩], []⟩).1
      ⟨false, 404, false⟩ rfl (by decide),
   (claim6_grant_failure_handling
      ⟨.error ⟨false, 403, false⟩, .ok [], .ok ()⟩ "s" "n" "b1"
      ⟨[⟨"b1", "w", "nm", "c", none, some "old"⟩], []⟩).2
      ⟨false, 403, false⟩ rfl (by decide) rfl⟩

/-- C7: when one table of a base fails after retries, the scan of that base
resolves without error, the base lands on the skip list with its `bases`
row (hence scan_id) unchanged, and every record of every sibling table that
succeeded before the failure is persisted in the data table tagged with the
current scan identifier. -/
theorem claim7_sibling_records_persist (env : BaseEnv)
    (scan_id now base_id : String) (st : Store) (ts1 ts2 : List TableEnv)
    (t : TableEnv) (e : RemErr) (hg : env.grant = .ok ())
    (ht : env.tables = .ok (ts1 ++ t :: ts2))
    (h1 : ∀ u ∈ ts1, ∃ recs, u.fetch = .ok recs)
    (he : t.fetch = .error e) :
    (scanBase env scan_id now base_id st).err = none ∧
    base_id ∈ (scanBase env scan_id now base_id st).skips ∧
    (scanBase env scan_id now base_id st).store.bases = st.bases ∧
    ∀ u ∈ ts1, ∀ recs, u.fetch = .ok recs → ∀ rec ∈ recs,
      ∃ row ∈ (scanBase env scan_id now base_id st).store.data,
        row.record_id = rec.id ∧ row.base_id = base_id ∧
          row.scan_id = some scan_id := by
  have hfail : (scanTables base_id scan_id (ts1 ++ t :: ts2)
      st.data).failed = true :=
    scanTables_failed_of_mem base_id scan_id _ st.data t
      (List.mem_append_right ts1 (List.mem_cons_self t ts2)) e he
  rw [scanBase_table_failure env scan_id now base_id st _ hg ht hfail]
  refine ⟨rfl, by simp, rfl, ?_⟩
  intro u hu recs huok rec hrec
  exact scanTables_prefix_persist base_id scan_id ts1 (t :: ts2) st.data
    h1 u hu recs huok rec hrec

/-- C7 witness: table T1 succeeds with record r1, then table T2 fails; the
base is skipped, its row is unchanged, and r1 is persisted tagged "s". -/
theorem claim7_sibling_records_persist_witness :
    (scanBase ⟨.ok (), .ok [⟨"t1", "T1", .ok [⟨"r1", "f1", "c1"⟩]⟩,
        ⟨"t2", "T2", .error ⟨false, 500, false⟩⟩], .ok ()⟩ "s" "n" "b1"
        ⟨[⟨"b1", "w", "nm", "c", none, none⟩], []⟩).err = none ∧
    "b1" ∈ (scanBase ⟨.ok (), .ok [⟨"t1", "T1", .ok [⟨"r1", "f1", "c1"⟩]⟩,
        ⟨"t2", "T2", .error ⟨false, 500, false⟩⟩], .ok ()⟩ "s" "n" "b1"
        ⟨[⟨"b1", "w", "nm", "c", none, none⟩], []⟩).skips ∧
    (scanBase ⟨.ok (), .ok [⟨"t1", "T1", .ok [⟨"r1", "f1", "c1"⟩]⟩,
        ⟨"t2", "T2", .error ⟨false, 500, false⟩⟩], .ok ()⟩ "s" "n" "b1"
        ⟨[⟨"b1", "w", "nm", "c", none, none⟩], []⟩).store.bases
      = [⟨"b1", "w", "nm", "c", none, none⟩] ∧
    ∃ row ∈ (scanBase ⟨.ok (),
        .ok [⟨"t1", "T1", .ok [⟨"r1", "f1", "c1"⟩]⟩,
        ⟨"t2", "T2", .error ⟨false, 500, false⟩⟩], .ok ()⟩ "s" "n" "b1"
        ⟨[⟨"b1", "w", "nm", "c", none, none⟩], []⟩).store.data,
      row.record_id = "r1" ∧ row.base_id = "b1" ∧ row.scan_id = some "s" := by
  have h := claim7_sibling_records_persist
    ⟨.ok (), .ok [⟨"t1", "T1", .ok [⟨"r1", "f1", "c1"⟩]⟩,
      ⟨"t2", "T2", .error ⟨false, 500, false⟩⟩], .ok ()⟩ "s" "n" "b1"
    ⟨[⟨"b1", "w", "nm", "c", none, none⟩], []⟩
    [⟨"t1", "T1", .ok [⟨"r1", "f1", "c1"⟩]⟩] []
    ⟨"t2", "T2", .error ⟨false, 500, false⟩⟩ ⟨false, 500, false⟩
    rfl rfl
    (by
      intro u hu
      rw [List.mem_singleton] at hu
      subst hu
      exact ⟨[⟨"r1", "f1", "c1"⟩], rfl⟩)
    rfl
  exact ⟨h.1, h.2.1, h.2.2.1,
    h.2.2.2 ⟨"t1", "T1", .ok [⟨"r1", "f1", "c1"⟩]⟩ (by simp)
      [⟨"r1", "f1", "c1"⟩] rfl ⟨"r1", "f1", "c1"⟩ (by simp)⟩

/-- C8: when the deletion flag is not true, the run performs no
reconciliation deletes — the final state is exactly the scan-phase state,
reconciliation is never applied — and no row is dropped: every base id and
every record id present before the run is still present at the end,
whatever its scan_id tag. -/
theorem claim8_no_delete_frame (env : String → BaseEnv)
    (scan_id now : String) (st : Store) :
    run env scan_id now false st = runScan env scan_id now st ∧
    (∀ b ∈ st.bases, ∃ b2 ∈ (run env scan_id now false st).store.bases,
      b2.id = b.id) ∧
    (∀ r ∈ st.data, ∃ r2 ∈ (run env scan_id now false st).store.data,
      r2.record_id = r.record_id) := by
  have heq := run_no_delete_eq env scan_id now st
  obtain ⟨hb, hd⟩ := runScanAux_preserves_keys env scan_id now
    (selectBases st scan_id) st
  refine ⟨heq, ?_, ?_⟩
  · intro b hbm
    rw [heq]
    exact hb b.id ⟨b, hbm, rfl⟩
  · intro r hrm
    rw [heq]
    exact hd r.record_id ⟨r, hrm, rfl⟩

/-- C8 witness: with the delete flag off, a store holding a base and a
record tagged with a stale identifier keeps both through a successful run
re-tagging the base. -/
theorem claim8_no_delete_frame_witness :
    run (fun _ => ⟨.ok (), .ok [⟨"t1", "T1", .ok [⟨"r1", "f1", "c1"⟩]⟩],
        .ok ()⟩) "s" "n" false
        ⟨[⟨"b1", "w", "nm", "c", some "t", some "old"⟩],
          [⟨"b9", "t9", "r9", "d9", "c9", some "old"⟩]⟩
      = runScan (fun _ => ⟨.ok (),
          .ok [⟨"t1", "T1", .ok [⟨"r1", "f1", "c1"⟩]⟩], .ok ()⟩) "s" "n"
          ⟨[⟨"b1", "w", "nm", "c", some "t", some "old"⟩],
            [⟨"b9", "t9", "r9", "d9", "c9", some "old"⟩]⟩ ∧
    (∃ b2 ∈ (run (fun _ => ⟨.ok (),
        .ok [⟨"t1", "T1", .ok [⟨"r1", "f1", "c1"⟩]⟩], .ok ()⟩) "s" "n" false
        ⟨[⟨"b1", "w", "nm", "c", some "t", some "old"⟩],
          [⟨"b9", "t9", "r9", "d9", "c9", some "old"⟩]⟩).store.bases,
      b2.id = "b1") ∧
    (∃ r2 ∈ (run (fun _ => ⟨.ok (),
        .ok [⟨"t1", "T1", .ok [⟨"r1", "f1", "c1"⟩]⟩], .ok ()⟩) "s" "n" false
        ⟨[⟨"b1", "w", "nm", "c", some "t", some "old"⟩],
          [⟨"b9", "t9", "r9", "d9", "c9", some "old"⟩]⟩).store.data,
      r2.record_id = "r9") := by
  have h := claim8_no_delete_frame
    (fun _ => ⟨.ok (), .ok [⟨"t1", "T1", .ok [⟨"r1", "f1", "c1"⟩]⟩,], .ok ()⟩)
    "s" "n"
    ⟨[⟨"b1", "w", "nm", "c", some "t", some "old"⟩],
      [⟨"b9", "t9", "r9", "d9", "c9", some "old"⟩]⟩
  exact ⟨h.1,
    h.2.1 ⟨"b1", "w", "nm", "c", some "t", some "old"⟩ (by simp),
    h.2.2 ⟨"b9", "t9", "r9", "d9", "c9", some "old"⟩ (by simp)⟩

/-- C9 counterexample: upserting two records that share a record identifier
but come from different bases and tables leaves a single row (the second
replaces the first), not two distinct rows: `record_id` alone is the
primary key of the data table. -/
theorem claim9_identity_counterexample :
    upsertData "b2" "t2" "s" ⟨"r1", "f2", "c2"⟩
        (upsertData "b1" "t1" "s" ⟨"r1", "f1", "c1"⟩ [])
      = [⟨"b2", "t2", "r1", "c2", "f2", some "s"⟩] ∧
    (upsertData "b2" "t2" "s" ⟨"r1", "f2", "c2"⟩
        (upsertData "b1" "t1" "s" ⟨"r1", "f1", "c1"⟩ [])).length = 1 := by
  constructor <;> decide

/-- C9 amended: record rows are keyed by the record identifier alone
(`record_id TEXT PRIMARY KEY`): an upsert replaces exactly the prior rows
with the same record identifier — including rows belonging to a different
base or table — and appends the fresh row tagged with the current scan
identifier. -/
theorem claim9_identity_amended (base_id table_id scan_id : String)
    (rec : RecordData) (rows : List DataRow) (row : DataRow) :
    row ∈ upsertData base_id table_id scan_id rec rows ↔
      ((row ∈ rows ∧ row.record_id ≠ rec.id) ∨
        row = ⟨base_id, table_id, rec.id, rec.createdTime, rec.fields,
                some scan_id⟩) :=
  upsertData_mem_iff base_id table_id scan_id rec rows row

/-- C10: the metadata crawl's base upsert supplies only id, workspace_id,
created_time and name, and `INSERT OR REPLACE` replaces the whole row, so a
base previously carrying a scan_id or scan_time has both reset to NULL —
the resumption state is erased — while rows of other bases are retained. -/
theorem claim10_metadata_upsert_resets_scan (rows : List BaseRow)
    (base_id wid ct nm : String) :
    (∀ b ∈ upsertBaseMeta base_id wid ct nm rows, b.id = base_id →
      b.scan_id = none ∧ b.scan_time = none) ∧
    ((⟨base_id, wid, nm, ct, none, none⟩ : BaseRow)
      ∈ upsertBaseMeta base_id wid ct nm rows) ∧
    (∀ b ∈ rows, b.id ≠ base_id → b ∈ upsertBaseMeta base_id wid ct nm rows) := by
  refine ⟨?_, ?_, ?_⟩
  · intro b hb hid
    rcases List.mem_append.1 hb with h | h
    · have := (List.mem_filter.1 h).2
      simp only [decide_eq_true_eq] at this
      exact absurd hid this
    · rw [List.mem_singleton] at h
      subst h
      exact ⟨rfl, rfl⟩
  · exact List.mem_append_right _ (List.mem_singleton.2 rfl)
  · intro b hb hne
    exact List.mem_append_left _
      (List.mem_filter.2 ⟨hb, by simpa using hne⟩)

/-- C10 witness: a base row tagged by a previous scan is replaced by a
fresh row with NULL scan_id and scan_time. -/
theorem claim10_metadata_upsert_resets_scan_witness :
    (⟨"b1", "w1", "n1", "c1", none, none⟩ : BaseRow)
      ∈ upsertBaseMeta "b1" "w1" "c1" "n1"
          [⟨"b1", "w0", "n0", "c0", some "t", some "sOld"⟩] ∧
    (⟨"b1", "w1", "n1", "c1", none, none⟩ : BaseRow).scan_id = none ∧
    (⟨"b1", "w1", "n1", "c1", none, none⟩ : BaseRow).scan_time = none := by
  have h := claim10_metadata_upsert_resets_scan
    [⟨"b1", "w0", "n0", "c0", some "t", some "sOld"⟩] "b1" "w1" "c1" "n1"
  exact ⟨h.2.1, h.1 ⟨"b1", "w1", "n1", "c1", none, none⟩ h.2.1 rfl⟩
